import Mathlib

/-!
Shallow embedding of the colony microservice framework (`services.go`) and
proofs about its routing, discovery and error-handling behaviour.

Modelling conventions:
* Go strings are Lean `String`s, `[]byte` is `List Nat`, `time.Time` is a
  `Nat` timestamp passed in explicitly (`time.Now()` is impure).
* The `Service` actor loop (`start`) is embedded as a step function on an
  explicit actor state; the three channels `addHandlerChan`,
  `removeHandlerChan`, `callHandlerChan` become the three constructors of
  `ActorEvent`.
* External collaborators (`json.Marshal`, the NSQ producer, topic creation,
  the lookupd registry) are oracles passed in as arguments; their results are
  universally quantified in the theorems.
* Functions that can call `log.Fatal` return a `GoResult`, whose `fatal`
  constructor marks process-ending termination.
-/

namespace Colony

/-- Components of an NSQ topic used for communication between services
(`topic`, services.go 22-26). -/
structure topic where
  ServiceName : String
  ServiceID : String
  ContentType : String
deriving DecidableEq

/-- Formatted topic name (`topic.getName`, services.go 29-31):
`t.ServiceName + "-" + t.ServiceID + "-" + t.ContentType`. -/
def topic.getName (t : topic) : String :=
  t.ServiceName ++ "-" ++ t.ServiceID ++ "-" ++ t.ContentType

/-- Message identifier (`messageID`, services.go 33): a string. -/
abbrev messageID := String

/-- Wire envelope (`Message`, services.go 38-46). -/
structure Message where
  FromName : String
  Payload : List Nat
  Time : Nat
  ContentType : String
  MessageID : messageID
  Topic : topic
  ResponseTopic : topic
deriving DecidableEq

/-- Two's-complement wraparound to the 64-bit signed range
`[-2^63, 2^63 - 1]`: the result of a Go `int` (64-bit) arithmetic operation
whose mathematical value is `n`. The literals are `2^63` and `2^64`. -/
def wrap64 (n : Int) : Int :=
  (n + 9223372036854775808) % 18446744073709551616 - 9223372036854775808

/-- The fields of `Service` (services.go 61-74) used by the embedded pure
operations: the service name and id, the message-id counter `i` (a Go `int`,
64-bit signed with wraparound, modelled as an `Int` kept in range by
`wrap64`), and the instance's response topic. -/
structure ServiceState where
  Name : String
  ID : String
  i : Int
  responseTopic : topic
deriving DecidableEq

/-- Counter increment (`nextID`, services.go 229-232): `s.i = s.i + 1` with Go
`int` overflow semantics, then `return messageID(strconv.Itoa(s.i))`. -/
def nextID (s : ServiceState) : ServiceState × messageID :=
  ({ s with i := wrap64 (s.i + 1) }, toString (wrap64 (s.i + 1)))

/-- Outbound message construction (`NewMessage`, services.go 197-213);
`time.Now()` is passed in as `now`. -/
def NewMessage (s : ServiceState) (contentType : String) (payload : List Nat)
    (now : Nat) : ServiceState × Message :=
  ((nextID s).1,
   { Topic := { ServiceName := s.Name, ServiceID := s.ID, ContentType := contentType },
     FromName := s.Name,
     Payload := payload,
     Time := now,
     ResponseTopic := s.responseTopic,
     MessageID := (nextID s).2,
     ContentType := contentType })

/-- Response construction (`NewResponse`, services.go 217-227): publish topic is
the request's `ResponseTopic`, the `MessageID` is copied from the request. -/
def NewResponse (s : ServiceState) (m : Message) (contentType : String)
    (payload : List Nat) (now : Nat) : Message :=
  { Topic := m.ResponseTopic,
    FromName := s.Name,
    Payload := payload,
    Time := now,
    ResponseTopic := s.responseTopic,
    MessageID := m.MessageID,
    ContentType := contentType }

/-- Arguments of one `NewMessage` call, for reasoning about call sequences. -/
structure MsgArgs where
  contentType : String
  payload : List Nat
  now : Nat

/-- Run a sequence of `NewMessage` calls on one service instance, threading the
state; returns the final state and the created messages in call order. -/
def runCalls (s : ServiceState) : List MsgArgs → ServiceState × List Message
  | [] => (s, [])
  | a :: rest =>
    ((runCalls (NewMessage s a.contentType a.payload a.now).1 rest).1,
     (NewMessage s a.contentType a.payload a.now).2 ::
       (runCalls (NewMessage s a.contentType a.payload a.now).1 rest).2)

/-- Handler functions are abstract tokens in the embedding (the Go `Handler`
is `func(<-chan Message) error`; only its identity matters for routing). -/
abbrev HandlerFn := Nat

/-- Identifier of a `chan Message` allocated by the actor (`make(chan Message)`
in the `addHandlerChan` branch of `start`). -/
abbrev ChanId := Nat

/-- Lookup in the Go map `map[messageID]chan Message`, modelled as an
association list where the most recent binding of a key shadows older ones
(matching Go map assignment). -/
def hmLookup : List (messageID × ChanId) → messageID → Option ChanId
  | [], _ => none
  | (k, v) :: rest, key => if k = key then some v else hmLookup rest key

/-- Go `delete(s.handlers, id)` (services.go 184): drop every binding of `id`. -/
def hmErase : List (messageID × ChanId) → messageID → List (messageID × ChanId)
  | [], _ => []
  | (k, v) :: rest, key =>
    if k = key then hmErase rest key else (k, v) :: hmErase rest key

/-- State owned by the `start` loop: the handler map plus a counter used to
allocate fresh channel identifiers for `make(chan Message)`. -/
structure ActorState where
  handlers : List (messageID × ChanId)
  nextChan : ChanId
deriving DecidableEq

/-- The three channels the `start` select loop (services.go 167-192) reads:
`addHandlerChan`, `removeHandlerChan` and `callHandlerChan`. -/
inductive ActorEvent where
  | add (id : messageID) (h : HandlerFn)
  | remove (id : messageID)
  | call (m : Message)

/-- Observable outcome of one actor step: a handler goroutine is spawned on a
fresh channel, a map entry is removed, a message is delivered on a registered
channel, or the message is dropped (the `continue` at services.go 188). -/
inductive ActorEffect where
  | spawn (id : messageID) (h : HandlerFn) (ch : ChanId)
  | removed
  | deliver (ch : ChanId) (m : Message)
  | dropped
deriving DecidableEq

/-- One iteration of the `start` select loop (services.go 167-192). The `add`
branch makes a fresh channel, stores it under the pair's id and spawns the
handler; the `remove` branch deletes the id; the `call` branch looks up the
message's `MessageID` and either forwards the message on the found channel or
silently skips it. -/
def actorStep (st : ActorState) : ActorEvent → ActorState × ActorEffect
  | .add id h =>
    ({ handlers := (id, st.nextChan) :: st.handlers, nextChan := st.nextChan + 1 },
     .spawn id h st.nextChan)
  | .remove id =>
    ({ st with handlers := hmErase st.handlers id }, .removed)
  | .call m =>
    match hmLookup st.handlers m.MessageID with
    | none => (st, .dropped)
    | some c => (st, .deliver c m)

/-- Actor states reachable from the initial empty handler map by any sequence
of events. -/
inductive reachable : ActorState → Prop where
  | init : reachable { handlers := [], nextChan := 0 }
  | step (st : ActorState) (e : ActorEvent) :
      reachable st → reachable (actorStep st e).1

/-- Invariant of reachable actor states: every registered channel id is below
the allocation counter, and no two map entries share a channel. -/
def actorWF (st : ActorState) : Prop :=
  (∀ p ∈ st.handlers, p.2 < st.nextChan) ∧ (st.handlers.map Prod.snd).Nodup

/-- Result of a Go computation that may end the process via `log.Fatal`. -/
inductive GoResult (α : Type) where
  | ok (a : α)
  | fatal (e : String)
deriving DecidableEq

/-- Tail of the handler goroutine spawned in `start` (services.go 175-182),
composed with the actor's processing of the induced remove event
(services.go 183-184): after `err := pair.h(c)`, a non-nil error is
`log.Fatal` (process-ending, the remove is never sent); otherwise the pair is
sent on `removeHandlerChan` and the actor deletes the id from the map. `res`
is the handler's returned error. -/
def handlerCompletion (st : ActorState) (id : messageID) (res : Option String) :
    GoResult ActorState :=
  match res with
  | some e => .fatal e
  | none => .ok (actorStep st (.remove id)).1

/-- Oracles for the external collaborators called by `produce` and `Announce`:
`json.Marshal`, `producer.Publish` (whose returned error the code discards)
and `createTopic` (whose internal `http.Get` failure is `log.Fatal`, hence the
`GoResult`; its non-200 error return is `ok (some e)`). -/
structure Externals where
  marshal : Message → Except String (List Nat)
  publish : String → List Nat → Option String
  createTopic : String → GoResult (Option String)

/-- Actions performed against the actor and the broker, in program order. -/
inductive ProdAction where
  | register (id : messageID) (h : HandlerFn)
  | publish (topicName : String) (body : List Nat)
  | createTopic (topicName : String)
deriving DecidableEq

/-- Publication (`produce`, services.go 328-342): when the handler is non-nil
it is first sent to the actor over `addHandlerChan` under `m.MessageID`; then
the message is marshalled (`log.Fatal` on error) and published on
`m.Topic.getName()`; the publish error is discarded and `nil` is returned. -/
def produce (m : Message) (h : Option HandlerFn) (ext : Externals) :
    List ProdAction × GoResult (Option String) :=
  let pre : List ProdAction :=
    match h with
    | some hf => [ProdAction.register m.MessageID hf]
    | none => []
  match ext.marshal m with
  | .error e => (pre, .fatal e)
  | .ok out => (pre ++ [ProdAction.publish m.Topic.getName out], .ok none)

/-- Fire-and-forget send (`Emit`, services.go 315-317): `s.produce(m, nil)`. -/
def Emit (m : Message) (ext : Externals) :
    List ProdAction × GoResult (Option String) :=
  produce m none ext

/-- Correlated request (`Request`, services.go 321-323): `s.produce(m, h)`. -/
def Request (m : Message) (h : HandlerFn) (ext : Externals) :
    List ProdAction × GoResult (Option String) :=
  produce m (some h) ext

/-- Discovery announcement (`Announce`, services.go 293-312): build an
announcement envelope (zero values for the unset Go fields), marshal it
(`log.Fatal` on error), create the announced topic ignoring its returned
error, publish on the reserved `colony-announce` topic ignoring the publish
error, and return `nil`. -/
def Announce (s : ServiceState) (contentType : String) (now : Nat)
    (ext : Externals) : List ProdAction × GoResult (Option String) :=
  let topicToAnnounce : topic :=
    { ServiceName := s.Name, ServiceID := s.ID, ContentType := contentType }
  let m : Message :=
    { FromName := s.Name,
      Payload := [],
      Time := now,
      ContentType := contentType,
      MessageID := "",
      Topic := topicToAnnounce,
      ResponseTopic := { ServiceName := "", ServiceID := "", ContentType := "" } }
  match ext.marshal m with
  | .error e => ([], .fatal e)
  | .ok out =>
    match ext.createTopic topicToAnnounce.getName with
    | .fatal e => ([ProdAction.createTopic topicToAnnounce.getName], .fatal e)
    | .ok _ =>
      ([ProdAction.createTopic topicToAnnounce.getName,
        ProdAction.publish "colony-announce" out], .ok none)

/-- What the response router does with one raw inbound NSQ message. -/
inductive RouterEffect where
  | dispatched (m : Message)
  | noDispatch
deriving DecidableEq

/-- Response-topic handler (`Service.HandleMessage`, services.go 257-265):
`json.Unmarshal` the body; a decode error is RETURNED to the nsq consumer
library (`return err`, no dispatch, no `log.Fatal`); otherwise the message is
sent on `callHandlerChan` and `nil` is returned. `decoded` is the unmarshal
outcome. -/
def Service.HandleMessage (decoded : Except String Message) :
    GoResult (RouterEffect × Option String) :=
  match decoded with
  | .error e => .ok (.noDispatch, some e)
  | .ok m => .ok (.dispatched m, none)

/-- Consume-side handler (`queueConsumer.HandleMessage`, services.go 356-364):
`json.Unmarshal` the body; a decode error is `log.Fatal` (process-ending);
otherwise the message is forwarded on the consumer channel, returning `nil`. -/
def queueConsumer.HandleMessage (decoded : Except String Message) :
    GoResult (RouterEffect × Option String) :=
  match decoded with
  | .error e => .fatal e
  | .ok m => .ok (.dispatched m, none)

/-- Go `strings.HasSuffix(s, post)`. -/
def hasSuffix (s post : String) : Bool :=
  post.data.isSuffixOf s.data

/-- Topic discovery snapshot (`lookupTopics`, services.go 385-404): keep, in
order, the registry topics `t` with `strings.HasSuffix(t, contentType)`. The
registry response body is passed in as `registryTopics`. -/
def lookupTopics (registryTopics : List String) (contentType : String) :
    List String :=
  registryTopics.filter (fun t => hasSuffix t contentType)

/-- An open NSQ subscription: topic plus channel name. -/
structure Subscription where
  topicName : String
  channel : String
deriving DecidableEq

/-- Subscriptions opened by `newConsumer` (services.go 409-439): one
`nsq.NewConsumer(topic, s.Name + "-" + s.ID, conf)` per topic returned by
`lookupTopics`. -/
def newConsumerSubs (s : ServiceState) (contentType : String)
    (registryTopics : List String) : List Subscription :=
  (lookupTopics registryTopics contentType).map
    (fun t => { topicName := t, channel := s.Name ++ "-" ++ s.ID })

/-- Content-type subscription (`Consume`, services.go 346-350): build the
consumer, call the handler synchronously, ignore the handler's returned error
(`handlerResult`), and return `nil`. -/
def Consume (s : ServiceState) (contentType : String)
    (registryTopics : List String) (handlerResult : Option String) :
    List Subscription × GoResult (Option String) :=
  (newConsumerSubs s contentType registryTopics, .ok none)

/-! Helper lemmas. -/

theorem hmLookup_hmErase (l : List (messageID × ChanId)) (key : messageID) :
    hmLookup (hmErase l key) key = none := by
  induction l with
  | nil => rfl
  | cons p rest ih =>
    obtain ⟨k, v⟩ := p
    by_cases h : k = key
    · simpa [hmErase, h] using ih
    · simp [hmErase, hmLookup, h, ih]

theorem hmLookup_mem {l : List (messageID × ChanId)} {key : messageID}
    {v : ChanId} (h : hmLookup l key = some v) : (key, v) ∈ l := by
  induction l with
  | nil => simp [hmLookup] at h
  | cons p rest ih =>
    obtain ⟨k, w⟩ := p
    by_cases hk : k = key
    · subst hk
      simp [hmLookup] at h
      subst h
      exact List.mem_cons_self _ _
    · simp [hmLookup, hk] at h
      exact List.mem_cons_of_mem _ (ih h)

theorem hmErase_sublist (l : List (messageID × ChanId)) (key : messageID) :
    List.Sublist (hmErase l key) l := by
  induction l with
  | nil => simp [hmErase]
  | cons p rest ih =>
    obtain ⟨k, v⟩ := p
    by_cases h : k = key
    · simp only [hmErase, if_pos h]
      exact ih.cons _
    · simp only [hmErase, if_neg h]
      exact ih.cons₂ _

theorem actorWF_step (st : ActorState) (e : ActorEvent) (h : actorWF st) :
    actorWF (actorStep st e).1 := by
  obtain ⟨hbound, hnodup⟩ := h
  cases e with
  | add id hf =>
    refine ⟨?_, ?_⟩
    · intro p hp
      simp only [actorStep] at hp ⊢
      rcases List.mem_cons.mp hp with rfl | hp'
      · exact Nat.lt_succ_self _
      · exact Nat.lt_succ_of_lt (hbound p hp')
    · simp only [actorStep, List.map_cons]
      refine List.nodup_cons.mpr ⟨?_, hnodup⟩
      intro hmem
      rcases List.mem_map.mp hmem with ⟨p, hp, hp2⟩
      exact absurd (hp2 ▸ hbound p hp) (lt_irrefl _)
  | remove id =>
    refine ⟨?_, ?_⟩
    · intro p hp
      simp only [actorStep] at hp ⊢
      exact hbound p ((hmErase_sublist st.handlers id).subset hp)
    · simp only [actorStep]
      exact hnodup.sublist ((hmErase_sublist st.handlers id).map Prod.snd)
  | call m =>
    cases hl : hmLookup st.handlers m.MessageID with
    | none =>
      have h1 : (actorStep st (.call m)).1 = st := by simp [actorStep, hl]
      rw [h1]
      exact ⟨hbound, hnodup⟩
    | some c =>
      have h1 : (actorStep st (.call m)).1 = st := by simp [actorStep, hl]
      rw [h1]
      exact ⟨hbound, hnodup⟩

theorem reachable_wf {st : ActorState} (h : reachable st) : actorWF st := by
  induction h with
  | init => exact ⟨fun p hp => absurd hp (List.not_mem_nil p), List.nodup_nil⟩
  | step st e hr ih => exact actorWF_step st e ih

theorem hmLookup_injective (st : ActorState) (hwf : actorWF st)
    {X Y : messageID} {ch : ChanId} (hX : hmLookup st.handlers X = some ch)
    (hY : hmLookup st.handlers Y = some ch) : X = Y := by
  have mX := hmLookup_mem hX
  have mY := hmLookup_mem hY
  have hpair : (X, ch) = (Y, ch) :=
    List.inj_on_of_nodup_map hwf.2 mX mY rfl
  exact congrArg Prod.fst hpair

theorem eq_of_append_sep_eq {c : Char} :
    ∀ {a a' b b' : List Char}, c ∉ a → c ∉ a' →
      a ++ c :: b = a' ++ c :: b' → a = a' ∧ b = b' := by
  intro a
  induction a with
  | nil =>
    intro a' b b' _ ha' h
    cases a' with
    | nil => simpa using h
    | cons x xs =>
      simp only [List.nil_append, List.cons_append, List.cons.injEq] at h
      obtain ⟨hcx, -⟩ := h
      subst hcx
      exact absurd (List.mem_cons_self _ _) ha'
  | cons x xs ih =>
    intro a' b b' ha ha' h
    cases a' with
    | nil =>
      simp only [List.cons_append, List.nil_append, List.cons.injEq] at h
      obtain ⟨hxc, -⟩ := h
      subst hxc
      exact absurd (List.mem_cons_self _ _) ha
    | cons y ys =>
      simp only [List.cons_append, List.cons.injEq] at h
      obtain ⟨hxy, htail⟩ := h
      have hca : c ∉ xs := fun hm => ha (List.mem_cons_of_mem _ hm)
      have hca' : c ∉ ys := fun hm => ha' (List.mem_cons_of_mem _ hm)
      obtain ⟨h1, h2⟩ := ih hca hca' htail
      exact ⟨by rw [hxy, h1], h2⟩

theorem getName_data (t : topic) :
    t.getName.data =
      t.ServiceName.data ++ '-' :: (t.ServiceID.data ++ '-' :: t.ContentType.data) := by
  simp [topic.getName, String.data_append]

theorem wrap64_eq_self (n : Int) (hlo : -9223372036854775808 ≤ n)
    (hhi : n ≤ 9223372036854775807) : wrap64 n = n := by
  unfold wrap64
  rw [Int.emod_eq_of_lt (by omega) (by omega)]
  omega

theorem NewMessage_counter (s : ServiceState) (ct : String) (p : List Nat)
    (now : Nat) : (NewMessage s ct p now).1.i = wrap64 (s.i + 1) := rfl

theorem runCalls_messageID (s : ServiceState) (args : List MsgArgs)
    (hlo : -9223372036854775808 ≤ s.i)
    (hhi : s.i + (args.length : Int) ≤ 9223372036854775807) (j : Nat)
    (h : j < (runCalls s args).2.length) :
    ((runCalls s args).2.get ⟨j, h⟩).MessageID = toString (s.i + (j : Int) + 1) := by
  induction args generalizing s j with
  | nil => simp [runCalls] at h
  | cons a rest ih =>
    have hhi' : s.i + 1 + (rest.length : Int) ≤ 9223372036854775807 := by
      push_cast [List.length_cons] at hhi
      omega
    have hw : wrap64 (s.i + 1) = s.i + 1 := by
      refine wrap64_eq_self (s.i + 1) (by omega) ?_
      have hnn : (0 : Int) ≤ (rest.length : Int) := Int.natCast_nonneg _
      omega
    have hs' : (NewMessage s a.contentType a.payload a.now).1.i = s.i + 1 :=
      (NewMessage_counter s a.contentType a.payload a.now).trans hw
    cases j with
    | zero =>
      calc ((runCalls s (a :: rest)).2.get ⟨0, h⟩).MessageID
          = toString (wrap64 (s.i + 1)) := rfl
        _ = toString (s.i + ((0 : Nat) : Int) + 1) := by
            rw [hw]
            exact congrArg toString (by omega)
    | succ j' =>
      have hlt : j' < (runCalls (NewMessage s a.contentType a.payload a.now).1 rest).2.length := by
        have h2 := h
        simp only [runCalls, List.length_cons] at h2
        omega
      calc ((runCalls s (a :: rest)).2.get ⟨j' + 1, h⟩).MessageID
          = ((runCalls (NewMessage s a.contentType a.payload a.now).1 rest).2.get
              ⟨j', hlt⟩).MessageID := rfl
        _ = toString ((NewMessage s a.contentType a.payload a.now).1.i + (j' : Int) + 1) :=
            ih (NewMessage s a.contentType a.payload a.now).1
              (by rw [hs']; omega) (by rw [hs']; omega) j' hlt
        _ = toString (s.i + ((j' + 1 : Nat) : Int) + 1) := by
            rw [hs']
            exact congrArg toString (by push_cast; ring)

/-! Theorems for the claims. -/

/-- Claim C1: for every message `m` and all inputs `ct` and `payload`, the
message built by `NewResponse(m, ct, payload)` has `MessageID` equal to
`m.MessageID`, content type `ct`, payload `payload`, and its publish topic
(`Topic`) equal to `m`'s response topic. -/
theorem claim_C1_newResponse_fields (s : ServiceState) (m : Message)
    (ct : String) (payload : List Nat) (now : Nat) :
    (NewResponse s m ct payload now).MessageID = m.MessageID ∧
    (NewResponse s m ct payload now).ContentType = ct ∧
    (NewResponse s m ct payload now).Payload = payload ∧
    (NewResponse s m ct payload now).Topic = m.ResponseTopic :=
  ⟨rfl, rfl, rfl, rfl⟩

/-- Claim C2: dispatching a message whose correlation id has no registered
handler channel leaves the actor state (in particular the handler map)
unchanged and produces the `dropped` effect: no delivery, no handler spawn, no
error. -/
theorem claim_C2_dispatch_miss_dropped (st : ActorState) (m : Message)
    (h : hmLookup st.handlers m.MessageID = none) :
    actorStep st (.call m) = (st, .dropped) := by
  simp [actorStep, h]

/-- Witness for C2 at a concrete state: the map holds only id `"1"`, the
dispatched message carries id `"2"`. -/
theorem claim_C2_witness :
    actorStep { handlers := [("1", 0)], nextChan := 1 }
        (.call { FromName := "bob", Payload := [], Time := 0,
                 ContentType := "ack", MessageID := "2",
                 Topic := { ServiceName := "a", ServiceID := "1", ContentType := "ack" },
                 ResponseTopic := { ServiceName := "b", ServiceID := "2", ContentType := "responses" } }) =
      ({ handlers := [("1", 0)], nextChan := 1 }, .dropped) :=
  claim_C2_dispatch_miss_dropped _ _ (by decide)

/-- Claim C4: when a registered handler returns without error, the actor state
after completion has the handler's correlation id deregistered; when the
handler returns a non-nil error, the whole service instance terminates
fatally (no successor state). -/
theorem claim_C4_handler_completion (st : ActorState) (id : messageID) :
    handlerCompletion st id none = .ok { st with handlers := hmErase st.handlers id } ∧
    hmLookup (hmErase st.handlers id) id = none ∧
    ∀ e, handlerCompletion st id (some e) = .fatal e :=
  ⟨rfl, hmLookup_hmErase st.handlers id, fun _ => rfl⟩

/-- Claim C5: `Request(m, h)` performs the handler registration under
`m.MessageID` strictly before the publish of `m` on its topic, while
`Emit(m)` performs the publish alone and never registers a handler. Stated on
the action traces of `produce` for any successful marshal. -/
theorem claim_C5_register_before_publish (m : Message) (hf : HandlerFn)
    (ext : Externals) (out : List Nat) (hm : ext.marshal m = .ok out) :
    (Request m hf ext).1 =
      [ProdAction.register m.MessageID hf,
       ProdAction.publish m.Topic.getName out] ∧
    (Emit m ext).1 = [ProdAction.publish m.Topic.getName out] ∧
    ∀ id h, ProdAction.register id h ∉ (Emit m ext).1 := by
  refine ⟨by simp [Request, produce, hm], by simp [Emit, produce, hm], ?_⟩
  intro id h
  simp [Emit, produce, hm]

/-- Witness for C5 with a concrete message and oracle whose marshal returns
an empty byte list. -/
theorem claim_C5_witness :
    (Request { FromName := "a", Payload := [1], Time := 0, ContentType := "bees",
               MessageID := "1",
               Topic := { ServiceName := "a", ServiceID := "1", ContentType := "bees" },
               ResponseTopic := { ServiceName := "a", ServiceID := "1", ContentType := "responses" } }
        7
        { marshal := fun _ => .ok [], publish := fun _ _ => none,
          createTopic := fun _ => .ok none }).1 =
      [ProdAction.register "1" 7, ProdAction.publish "a-1-bees" []] ∧
    (Emit { FromName := "a", Payload := [1], Time := 0, ContentType := "bees",
            MessageID := "1",
            Topic := { ServiceName := "a", ServiceID := "1", ContentType := "bees" },
            ResponseTopic := { ServiceName := "a", ServiceID := "1", ContentType := "responses" } }
        { marshal := fun _ => .ok [], publish := fun _ _ => none,
          createTopic := fun _ => .ok none }).1 =
      [ProdAction.publish "a-1-bees" []] ∧
    ∀ id h, ProdAction.register id h ∉
      (Emit { FromName := "a", Payload := [1], Time := 0, ContentType := "bees",
              MessageID := "1",
              Topic := { ServiceName := "a", ServiceID := "1", ContentType := "bees" },
              ResponseTopic := { ServiceName := "a", ServiceID := "1", ContentType := "responses" } }
          { marshal := fun _ => .ok [], publish := fun _ _ => none,
            createTopic := fun _ => .ok none }).1 :=
  claim_C5_register_before_publish _ 7 _ [] rfl

/-- Counterexample to claim C7: on a decode failure of an inbound payload on
the service's own response topic, `Service.HandleMessage` does not abort the
process; it returns the decode error to the nsq consumer library. -/
theorem claim_C7_counterexample :
    Service.HandleMessage (Except.error "bad envelope") =
      .ok (.noDispatch, some "bad envelope") ∧
    (match Service.HandleMessage (Except.error "bad envelope") with
      | .fatal _ => False
      | .ok _ => True) :=
  ⟨rfl, trivial⟩

/-- Claim C7 as amended: a decode failure on the service's own response topic
is returned as an error to the broker client (nothing is dispatched and the
process does not abort); the fatal-on-decode-failure behaviour belongs to the
Consume-side `queueConsumer` handler instead. -/
theorem claim_C7_amended_decode_error_returned (e : String) (m : Message) :
    Service.HandleMessage (Except.error e) = .ok (.noDispatch, some e) ∧
    Service.HandleMessage (Except.ok m) = .ok (.dispatched m, none) ∧
    queueConsumer.HandleMessage (Except.error e) = .fatal e :=
  ⟨rfl, rfl, rfl⟩

/-- Claim C8: for every content type and every registry snapshot, the lookup
used by `Consume` selects exactly the registry topics having the content type
as a suffix, and `newConsumer` opens one subscription (on channel
`Name-ID`) for each selected topic and no others. -/
theorem claim_C8_suffix_filter_subscriptions (s : ServiceState)
    (contentType : String) (registryTopics : List String) :
    (∀ t, t ∈ lookupTopics registryTopics contentType ↔
        t ∈ registryTopics ∧ contentType.data <:+ t.data) ∧
    (∀ sub : Subscription, sub ∈ newConsumerSubs s contentType registryTopics ↔
        sub.topicName ∈ registryTopics ∧ contentType.data <:+ sub.topicName.data ∧
        sub.channel = s.Name ++ "-" ++ s.ID) := by
  constructor
  · intro t
    simp [lookupTopics, hasSuffix, List.mem_filter, List.isSuffixOf_iff_suffix]
  · intro sub
    obtain ⟨tn, ch⟩ := sub
    simp only [newConsumerSubs, List.mem_map, lookupTopics, List.mem_filter,
      hasSuffix, List.isSuffixOf_iff_suffix, decide_eq_true_eq]
    constructor
    · rintro ⟨t, ⟨ht, hsuf⟩, heq⟩
      cases heq
      exact ⟨ht, hsuf, rfl⟩
    · rintro ⟨ht, hsuf, hch⟩
      cases hch
      exact ⟨tn, ⟨ht, hsuf⟩, rfl⟩

/-- Claim C10: the public operations `Emit`, `Request`, `Announce` and
`Consume` never propagate a failure through their error return: every
non-aborting execution returns `nil`, for all oracle outcomes (publish
failures and topic-creation failures included) and any handler result. -/
theorem claim_C10_public_api_returns_nil (s : ServiceState) (m : Message)
    (hf : HandlerFn) (contentType : String) (now : Nat) (ext : Externals)
    (registryTopics : List String) (handlerResult : Option String) :
    ((Emit m ext).2 = .ok none ∨ ∃ e, (Emit m ext).2 = .fatal e) ∧
    ((Request m hf ext).2 = .ok none ∨ ∃ e, (Request m hf ext).2 = .fatal e) ∧
    ((Announce s contentType now ext).2 = .ok none ∨
      ∃ e, (Announce s contentType now ext).2 = .fatal e) ∧
    (Consume s contentType registryTopics handlerResult).2 = .ok none := by
  refine ⟨?_, ?_, ?_, rfl⟩
  · cases hm : ext.marshal m with
    | error e => exact Or.inr ⟨e, by simp [Emit, produce, hm]⟩
    | ok out => exact Or.inl (by simp [Emit, produce, hm])
  · cases hm : ext.marshal m with
    | error e => exact Or.inr ⟨e, by simp [Request, produce, hm]⟩
    | ok out => exact Or.inl (by simp [Request, produce, hm])
  · simp only [Announce]
    cases hm : ext.marshal
        { FromName := s.Name, Payload := [], Time := now,
          ContentType := contentType, MessageID := "",
          Topic := { ServiceName := s.Name, ServiceID := s.ID, ContentType := contentType },
          ResponseTopic := { ServiceName := "", ServiceID := "", ContentType := "" } } with
    | error e => exact Or.inr ⟨e, by simp [hm]⟩
    | ok out =>
      cases hc : ext.createTopic
          (topic.getName { ServiceName := s.Name, ServiceID := s.ID, ContentType := contentType }) with
      | fatal e => exact Or.inr ⟨e, by simp [hm, hc]⟩
      | ok r => exact Or.inl (by simp [hm, hc])

/-- Claim C3: in any reachable actor state, if a handler is registered under
correlation id `X` with channel `ch`, then a dispatch that delivers on `ch`
delivers exactly the dispatched message and only when that message's
correlation id equals `X`: no message bearing a different correlation id ever
reaches that handler's channel. -/
theorem claim_C3_delivery_only_matching_id (st : ActorState)
    (hr : reachable st) (X : messageID) (ch : ChanId) (m m' : Message)
    (hreg : hmLookup st.handlers X = some ch)
    (hdel : (actorStep st (.call m)).2 = .deliver ch m') :
    m' = m ∧ m.MessageID = X := by
  cases hl : hmLookup st.handlers m.MessageID with
  | none => simp [actorStep, hl] at hdel
  | some c =>
    have h2 : (actorStep st (.call m)).2 = .deliver c m := by
      simp [actorStep, hl]
    rw [h2] at hdel
    injection hdel with hc hm'
    subst hc
    subst hm'
    exact ⟨rfl, hmLookup_injective st (reachable_wf hr) hl hreg⟩

/-- Witness for C3: the state reached by registering id `"1"` (handler token
7), a registered channel 0, and a dispatched message with id `"1"`. -/
theorem claim_C3_witness :
    ({ FromName := "b", Payload := [2], Time := 5, ContentType := "ack",
       MessageID := "1",
       Topic := { ServiceName := "a", ServiceID := "1", ContentType := "responses" },
       ResponseTopic := { ServiceName := "b", ServiceID := "2", ContentType := "responses" } } : Message) =
      { FromName := "b", Payload := [2], Time := 5, ContentType := "ack",
        MessageID := "1",
        Topic := { ServiceName := "a", ServiceID := "1", ContentType := "responses" },
        ResponseTopic := { ServiceName := "b", ServiceID := "2", ContentType := "responses" } } ∧
    ({ FromName := "b", Payload := [2], Time := 5, ContentType := "ack",
       MessageID := "1",
       Topic := { ServiceName := "a", ServiceID := "1", ContentType := "responses" },
       ResponseTopic := { ServiceName := "b", ServiceID := "2", ContentType := "responses" } } : Message).MessageID = "1" :=
  claim_C3_delivery_only_matching_id
    { handlers := [("1", 0)], nextChan := 1 }
    (reachable.step { handlers := [], nextChan := 0 } (.add "1" 7) reachable.init)
    "1" 0 _ _ (by decide) (by decide)

/-- Claim C6: the topic name is the deterministic concatenation
`ServiceName-ServiceID-ContentType`, and `getName` is injective on triples
whose components are free of the separator character. -/
theorem claim_C6_getName_injective (t t' : topic)
    (h1 : '-' ∉ t.ServiceName.data) (h2 : '-' ∉ t.ServiceID.data)
    (h3 : '-' ∉ t.ContentType.data) (h1' : '-' ∉ t'.ServiceName.data)
    (h2' : '-' ∉ t'.ServiceID.data) (h3' : '-' ∉ t'.ContentType.data)
    (heq : t.getName = t'.getName) :
    t.getName = t.ServiceName ++ "-" ++ t.ServiceID ++ "-" ++ t.ContentType ∧
    t = t' := by
  refine ⟨rfl, ?_⟩
  have hd : t.getName.data = t'.getName.data := by rw [heq]
  rw [getName_data, getName_data] at hd
  obtain ⟨e1, hrest⟩ := eq_of_append_sep_eq h1 h1' hd
  obtain ⟨e2, e3⟩ := eq_of_append_sep_eq h2 h2' hrest
  obtain ⟨n1, i1, c1⟩ := t
  obtain ⟨n2, i2, c2⟩ := t'
  cases String.ext e1
  cases String.ext e2
  cases String.ext e3
  rfl

/-- Witness for C6 at the separator-free triple (alice, 1, greeting). -/
theorem claim_C6_witness :
    topic.getName { ServiceName := "alice", ServiceID := "1", ContentType := "greeting" } =
      "alice" ++ "-" ++ "1" ++ "-" ++ "greeting" ∧
    ({ ServiceName := "alice", ServiceID := "1", ContentType := "greeting" } : topic) =
      { ServiceName := "alice", ServiceID := "1", ContentType := "greeting" } :=
  claim_C6_getName_injective _ _ (by decide) (by decide) (by decide)
    (by decide) (by decide) (by decide) rfl

/-- Counterexample to claim C9: on an instance whose Go `int` counter stands
at `2^63 - 2`, the next two `NewMessage` calls receive the ids
`"9223372036854775807"` and then, after the counter wraps,
`"-9223372036854775808"`: the later call's id denotes a strictly smaller
integer than the earlier call's, so the ids are not strictly monotonically
increasing for every pair of calls. -/
theorem claim_C9_counterexample :
    ((runCalls
        { Name := "a", ID := "1", i := 9223372036854775806,
          responseTopic := { ServiceName := "a", ServiceID := "1", ContentType := "responses" } }
        [{ contentType := "bees", payload := [], now := 0 },
         { contentType := "bees", payload := [], now := 1 }]).2.get
        ⟨0, by decide⟩).MessageID = toString (9223372036854775807 : Int) ∧
    ((runCalls
        { Name := "a", ID := "1", i := 9223372036854775806,
          responseTopic := { ServiceName := "a", ServiceID := "1", ContentType := "responses" } }
        [{ contentType := "bees", payload := [], now := 0 },
         { contentType := "bees", payload := [], now := 1 }]).2.get
        ⟨1, by decide⟩).MessageID = toString (-9223372036854775808 : Int) ∧
    (-9223372036854775808 : Int) < 9223372036854775807 :=
  ⟨rfl, rfl, by decide⟩

/-- Claim C9 as amended: the correlation ids handed out by successive
`NewMessage` calls on one service instance denote strictly increasing
integers, provided the 64-bit counter does not overflow during the run (its
start value plus the number of calls stays within `[-2^63, 2^63 - 1]`): for
the `j`-th and `k`-th calls with `j < k`, the two ids are the decimal strings
of integers `a < b`. -/
theorem claim_C9_ids_strictly_increasing (s : ServiceState)
    (args : List MsgArgs) (hlo : -9223372036854775808 ≤ s.i)
    (hhi : s.i + (args.length : Int) ≤ 9223372036854775807)
    (j k : Nat) (hjk : j < k) (hk : k < (runCalls s args).2.length) :
    ∃ a b : Int,
      ((runCalls s args).2.get ⟨j, hjk.trans hk⟩).MessageID = toString a ∧
      ((runCalls s args).2.get ⟨k, hk⟩).MessageID = toString b ∧
      a < b :=
  ⟨s.i + (j : Int) + 1, s.i + (k : Int) + 1,
   runCalls_messageID s args hlo hhi j (hjk.trans hk),
   runCalls_messageID s args hlo hhi k hk,
   by omega⟩

/-- Witness for C9: two `NewMessage` calls on a fresh instance, far from the
overflow bound. -/
theorem claim_C9_witness :
    ∃ a b : Int,
      ((runCalls
          { Name := "a", ID := "1", i := 0,
            responseTopic := { ServiceName := "a", ServiceID := "1", ContentType := "responses" } }
          [{ contentType := "bees", payload := [], now := 0 },
           { contentType := "bees", payload := [], now := 1 }]).2.get
          ⟨0, by decide⟩).MessageID = toString a ∧
      ((runCalls
          { Name := "a", ID := "1", i := 0,
            responseTopic := { ServiceName := "a", ServiceID := "1", ContentType := "responses" } }
          [{ contentType := "bees", payload := [], now := 0 },
           { contentType := "bees", payload := [], now := 1 }]).2.get
          ⟨1, by decide⟩).MessageID = toString b ∧
      a < b :=
  claim_C9_ids_strictly_increasing _ _ (by decide) (by decide) 0 1
    (by decide) (by decide)

end Colony
